import Mathlib

/-!
Shallow embedding of the `decadog` core client (decadog_core/src/github.rs and
decadog_core/src/lib.rs): the authenticated request layer, the HTTP response
classifier `send_github`, URL construction, client identity hashing, the update
and search payload serializers, and the paginated search sequence.
-/

namespace Decadog

/-- Log levels of the `log` crate used by the source (`debug!`, `error!`, `warn!`). -/
inductive Level where
  | debug
  | warn
  | error
  deriving DecidableEq, Repr

/-- HTTP methods used by the client (`reqwest::Method`). -/
inductive Method where
  | GET
  | PATCH
  deriving DecidableEq, Repr

/-- Detail of a single client error (github.rs `GithubClientErrorDetail`). -/
structure GithubClientErrorDetail where
  resource : String
  field : String
  code : String
  deriving DecidableEq, Repr

/-- Returned from the API when one or more client errors have been made
(github.rs `GithubClientErrorBody`). -/
structure GithubClientErrorBody where
  message : String
  errors : Option (List GithubClientErrorDetail)
  documentation_url : Option String
  deriving DecidableEq, Repr

/-- A response from the Github search API (github.rs `GithubSearchResults<T>`). -/
structure GithubSearchResults (T : Type) where
  incomplete_results : Bool
  items : List T
  deriving DecidableEq, Repr

/-- The decadog_core error taxonomy, as used by github.rs: `Error::Config`
carries a description, `Error::Github` carries a decoded 4xx body and the
status, `Error::Api` carries a description and the status.  The variant
`reqwestError` stands for errors converted from `reqwest::Error` by `?`
(transport failures from `send()` and deserialization failures from
`json()`); the enum itself lives in decadog_core/src/error.rs, whose file is
not part of the snapshot, but every variant here is pinned down by its uses
in github.rs. -/
inductive Error where
  | Config (description : String)
  | Github (error : GithubClientErrorBody) (status : Nat)
  | Api (description : String) (status : Nat)
  | reqwestError
  deriving DecidableEq, Repr

/-- A completed HTTP response: a status code and an undecoded body.  The body
type is abstract; decoding it is passed in as a function, mirroring serde's
generic `response.json::<T>()`. -/
structure Response (Body : Type) where
  status : Nat
  body : Body
  deriving DecidableEq, Repr

/-- `reqwest::StatusCode::is_success`: 2xx. -/
def isSuccess (status : Nat) : Bool :=
  200 ≤ status && status < 300

/-- `reqwest::StatusCode::is_client_error`: 4xx. -/
def isClientError (status : Nat) : Bool :=
  400 ≤ status && status < 500

/-- github.rs `SendGithubExt::send_github` for `RequestBuilder`: dispatch the
request, then classify the completed response by status code.  `sent` is the
transport outcome (`self.send()?`): `none` models a transport error, `some
resp` a completed response.  `decodeT` models `response.json::<T>()` on the
success path, `decodeErrBody` models `response.json::<GithubClientErrorBody>()`
on the 4xx path; each returns `none` exactly when serde deserialization fails,
which the source's `?` converts into an error (never a panic). -/
def send_github {Body T : Type} (decodeT : Body → Option T)
    (decodeErrBody : Body → Option GithubClientErrorBody)
    (sent : Option (Response Body)) : Except Error T :=
  match sent with
  | none => .error .reqwestError
  | some response =>
    let status := response.status
    if isSuccess status then
      match decodeT response.body with
      | some value => .ok value
      | none => .error .reqwestError
    else if isClientError status then
      match decodeErrBody response.body with
      | some error => .error (.Github error status)
      | none => .error .reqwestError
    else
      .error (.Api "Unexpected response status code." status)

end Decadog

namespace Decadog

/-- C1, branch structure of `send_github`, bundled: on a 2xx status the decoded
value is returned, or a deserialization failure is surfaced as an error; on a
4xx status the decoded structured body and the exact status are wrapped in
`Error.Github`; on any other status `Error.Api` carries the raw status and the
body is never consulted. -/
theorem send_github_classifies {Body T : Type}
    (decodeT : Body → Option T) (decodeErrBody : Body → Option GithubClientErrorBody)
    (resp : Response Body) :
    (∀ value, isSuccess resp.status = true → decodeT resp.body = some value →
      send_github decodeT decodeErrBody (some resp) = .ok value) ∧
    (isSuccess resp.status = true → decodeT resp.body = none →
      send_github decodeT decodeErrBody (some resp) = .error .reqwestError) ∧
    (∀ body, isSuccess resp.status = false → isClientError resp.status = true →
      decodeErrBody resp.body = some body →
      send_github decodeT decodeErrBody (some resp) =
        .error (.Github body resp.status)) ∧
    (isSuccess resp.status = false → isClientError resp.status = false →
      send_github decodeT decodeErrBody (some resp) =
        .error (.Api "Unexpected response status code." resp.status)) := by
  refine ⟨?_, ?_, ?_, ?_⟩
  · intro value hs hd
    simp [send_github, hs, hd]
  · intro hs hd
    simp [send_github, hs, hd]
  · intro body hs hc hd
    simp [send_github, hs, hc, hd]
  · intro hs hc
    simp [send_github, hs, hc]

/-- Concrete instantiation of the classifier theorem: a 200 response decoding
to `7` succeeds; a 200 response with an undecodable body fails as a
deserialization error; a 404 response with a decodable structured body fails
as `Error.Github` with status 404 and that body; a 500 response fails as
`Error.Api` with status 500. -/
theorem send_github_classifies_witness :
    (@send_github Nat Nat
      (fun b => if b = 1 then some 7 else none) (fun _ => none)
      (some ⟨200, 1⟩) = .ok 7) ∧
    (@send_github Nat Nat
      (fun b => if b = 1 then some 7 else none) (fun _ => none)
      (some ⟨200, 2⟩) = .error .reqwestError) ∧
    (@send_github Nat Nat
      (fun _ => none) (fun _ => some ⟨"Not Found", none, none⟩)
      (some ⟨404, 0⟩) = .error (.Github ⟨"Not Found", none, none⟩ 404)) ∧
    (@send_github Nat Nat
      (fun _ => none) (fun _ => none)
      (some ⟨500, 0⟩) =
        .error (.Api "Unexpected response status code." 500)) := by
  refine ⟨?_, ?_, ?_, ?_⟩
  · exact (send_github_classifies _ _ _).1 7 (by decide) (by decide)
  · exact (send_github_classifies _ _ _).2.1 (by decide) (by decide)
  · exact (send_github_classifies _ _ _).2.2.1 _ (by decide) (by decide) rfl
  · exact (send_github_classifies _ _ _).2.2.2 (by decide) (by decide)

end Decadog

namespace Decadog

/-- The JSON shapes that can appear as a serialized field of an update or
search payload: an explicit `null`, a number, or an array of strings. -/
inductive JsonValue where
  | null
  | num (n : Nat)
  | strings (xs : List String)
  deriving DecidableEq, Repr

/-- github.rs `IssueUpdate`, the PATCH payload for an issue.  Modelled from the
spec: each field is the tri-state "unset / set / explicit clear" the spec
mandates, i.e. `milestone : Option (Option u32)`.  The github.rs file in the
snapshot declares `milestone: Option<u32>`, but its caller
`Client::assign_issue_to_milestone` (lib.rs) assigns
`Some(milestone.map(|m| m.number))`, which only typechecks against the
tri-state declaration, so the definition the rest of the crate compiles
against is missing from the snapshot and is reconstructed here from the spec
and that caller. -/
structure IssueUpdate where
  milestone : Option (Option Nat)
  assignees : Option (List String)
  deriving DecidableEq, Repr

/-- The `Default` instance of `IssueUpdate` (serde derive `Default`): both
fields unset. -/
def IssueUpdate.default : IssueUpdate :=
  { milestone := none, assignees := none }

/-- Serde serialization of `IssueUpdate` as a list of JSON object fields:
`skip_serializing_if = "Option::is_none"` omits an unset field entirely; a
field set to `Some(None)` serializes as an explicit `null`; a set value
serializes as itself. -/
def IssueUpdate.serialize (u : IssueUpdate) : List (String × JsonValue) :=
  (match u.milestone with
    | none => []
    | some none => [("milestone", .null)]
    | some (some n) => [("milestone", .num n)]) ++
  (match u.assignees with
    | none => []
    | some logins => [("assignees", .strings logins)])

/-- The keys present in a serialized payload. -/
def fieldKeys {α : Type} (fields : List (String × α)) : List String :=
  fields.map Prod.fst

/-- lib.rs `Client::assign_issue_to_milestone`: the update it builds sets
`milestone := Some(milestone.map(|m| m.number))` on a default `IssueUpdate`
and leaves `assignees` unset; passing `None` clears the milestone. -/
def assignIssueUpdate (milestone : Option Nat) : IssueUpdate :=
  { IssueUpdate.default with milestone := some milestone }

/-- github.rs `SearchIssues`, the query object for the search endpoint.  `q`
is required; `sort` and `order` are optional with
`skip_serializing_if = "Option::is_none"`.  `per_page` modelled from the
spec: the spec lists `per_page` among the optional search query parameters
and the orchestration caller (lib.rs `Client::search_issues`) sets
`per_page: Some(100)`, but the field is absent from the snapshot's github.rs
declaration; it is reconstructed here with the same skip-if-unset rule. -/
structure SearchIssues where
  q : String
  sort : Option String
  order : Option String
  per_page : Option Nat
  deriving DecidableEq, Repr

/-- Serde urlencoded serialization of `SearchIssues` into query-string pairs
(`RequestBuilder::query`): `q` always, each optional field only when set. -/
def SearchIssues.queryPairs (s : SearchIssues) : List (String × String) :=
  [("q", s.q)] ++
  (match s.sort with | none => [] | some v => [("sort", v)]) ++
  (match s.order with | none => [] | some v => [("order", v)]) ++
  (match s.per_page with | none => [] | some v => [("per_page", toString v)])

end Decadog

namespace Decadog

/-- C2: serializing the update built to clear only the milestone omits
`assignees` entirely and serializes `milestone` as an explicit `null`; in
general an unset field never contributes a key to the payload, and a field
set to "clear" contributes an explicit `null` entry. -/
theorem issueUpdate_serialization (u : IssueUpdate) :
    (assignIssueUpdate none).serialize = [("milestone", JsonValue.null)] ∧
    (u.milestone = none → "milestone" ∉ fieldKeys u.serialize) ∧
    (u.assignees = none → "assignees" ∉ fieldKeys u.serialize) ∧
    (u.milestone = some none → ("milestone", JsonValue.null) ∈ u.serialize) := by
  refine ⟨rfl, ?_, ?_, ?_⟩
  · intro hm
    cases ha : u.assignees <;>
      simp [IssueUpdate.serialize, fieldKeys, hm, ha]
  · intro ha
    cases hm : u.milestone with
    | none => simp [IssueUpdate.serialize, fieldKeys, hm, ha]
    | some m => cases m <;> simp [IssueUpdate.serialize, fieldKeys, hm, ha]
  · intro hm
    cases ha : u.assignees <;>
      simp [IssueUpdate.serialize, hm, ha]

/-- Concrete instantiation: for the clear-milestone update itself, the payload
is exactly `{"milestone": null}`, the `assignees` key is absent, and the
`milestone` key maps to an explicit null. -/
theorem issueUpdate_serialization_witness :
    (assignIssueUpdate none).serialize = [("milestone", JsonValue.null)] ∧
    "assignees" ∉ fieldKeys (assignIssueUpdate none).serialize ∧
    ("milestone", JsonValue.null) ∈ (assignIssueUpdate none).serialize := by
  refine ⟨(issueUpdate_serialization (assignIssueUpdate none)).1,
    (issueUpdate_serialization (assignIssueUpdate none)).2.2.1 rfl,
    (issueUpdate_serialization (assignIssueUpdate none)).2.2.2 rfl⟩

/-- C9: the serialized search query always carries `q`; each absent optional
parameter (`sort`, `order`, `per_page`) contributes no key at all; when all
three are absent the query string consists of the `q` pair alone. -/
theorem searchIssues_query_serialization (s : SearchIssues) :
    ("q", s.q) ∈ s.queryPairs ∧
    (s.sort = none → "sort" ∉ fieldKeys s.queryPairs) ∧
    (s.order = none → "order" ∉ fieldKeys s.queryPairs) ∧
    (s.per_page = none → "per_page" ∉ fieldKeys s.queryPairs) ∧
    (s.sort = none → s.order = none → s.per_page = none →
      s.queryPairs = [("q", s.q)]) := by
  refine ⟨?_, ?_, ?_, ?_, ?_⟩
  · simp [SearchIssues.queryPairs]
  · intro hs
    cases ho : s.order <;> cases hp : s.per_page <;>
      simp [SearchIssues.queryPairs, fieldKeys, hs, ho, hp]
  · intro ho
    cases hs : s.sort <;> cases hp : s.per_page <;>
      simp [SearchIssues.queryPairs, fieldKeys, hs, ho, hp]
  · intro hp
    cases hs : s.sort <;> cases ho : s.order <;>
      simp [SearchIssues.queryPairs, fieldKeys, hs, ho, hp]
  · intro hs ho hp
    simp [SearchIssues.queryPairs, hs, ho, hp]

/-- Concrete instantiation: a search with only `q = "is:open"` serializes to
exactly the one `q` pair, with no `sort`, `order` or `per_page` key. -/
theorem searchIssues_query_serialization_witness :
    ("q", "is:open") ∈ (SearchIssues.mk "is:open" none none none).queryPairs ∧
    "sort" ∉ fieldKeys (SearchIssues.mk "is:open" none none none).queryPairs ∧
    (SearchIssues.mk "is:open" none none none).queryPairs =
      [("q", "is:open")] := by
  refine ⟨(searchIssues_query_serialization _).1,
    (searchIssues_query_serialization _).2.1 rfl,
    (searchIssues_query_serialization _).2.2.2.2 rfl rfl rfl⟩

end Decadog

namespace Decadog

/-- A parsed absolute URL, as the `url` crate represents the URLs this client
builds: a scheme, a host, and a path that always begins with `/`. -/
structure Url where
  scheme : String
  host : String
  path : String
  deriving DecidableEq, Repr

/-- Serialization of a `Url` (`Url::as_str`). -/
def Url.str (u : Url) : String :=
  u.scheme ++ "://" ++ u.host ++ u.path

/-- Split a character list at every occurrence of a separator character. -/
def splitOnChar (sep : Char) : List Char → List (List Char)
  | [] => [[]]
  | c :: rest =>
    match splitOnChar sep rest with
    | [] => [[]]
    | group :: groups =>
      if c = sep then [] :: group :: groups else (c :: group) :: groups

/-- Split a character list at the first occurrence of `://`, into the part
before it and the part after it. -/
def splitScheme : List Char → Option (List Char × List Char)
  | [] => none
  | ':' :: '/' :: '/' :: rest => some ([], rest)
  | c :: rest => (splitScheme rest).map (fun p => (c :: p.1, p.2))

/-- Reassemble path segments into a `/`-separated absolute path (a URL with
no path gets the normalized root path `/`). -/
def pathOfSegs (segs : List (List Char)) : String :=
  if segs = [] then "/"
  else ⟨segs.foldl (fun acc group => acc ++ '/' :: group) []⟩

/-- `Url::parse` of the `url` crate, modelled for the absolute `http(s)`
URLs this client is configured with: a nonempty scheme before `://`, a
nonempty host, and a path normalized to begin with `/` (a host-only URL
gets path `/`). -/
def parseUrl (s : String) : Option Url :=
  match splitScheme s.data with
  | none => none
  | some (schemeChars, rest) =>
    if schemeChars = [] then none
    else
      match splitOnChar '/' rest with
      | [] => none
      | host :: segs =>
        if host = [] then none
        else some { scheme := ⟨schemeChars⟩, host := ⟨host⟩,
                    path := pathOfSegs segs }

/-- Whether a reference string is an absolute-path reference (starts with
`/`). -/
def startsWithSlash (s : String) : Bool :=
  s.data.head? = some '/'

/-- The base path up to and including its last `/` (RFC 3986 `merge`): the
segments a relative reference is resolved against. -/
def keepThroughLastSlash (p : String) : String :=
  ⟨(p.data.reverse.dropWhile (fun c => c ≠ '/')).reverse⟩

/-- `Url::join` of the `url` crate for the path-only references this client
produces (RFC 3986 reference resolution): an absolute-path reference
replaces the base's path; a relative reference is appended to the base path
with its last segment removed.  Scheme and host are always kept.
`Url::join` returns a `Result` whose error the source propagates with `?`;
parsing a path-only reference cannot fail, so on these call sites the error
arm is dead and the join is modelled total. -/
def urlJoin (base : Url) (ref : String) : Url :=
  if startsWithSlash ref then { base with path := ref }
  else { base with path := keepThroughLastSlash base.path ++ ref }

/-- github.rs `Client::get_issue` URL: one join of the base URL with the
formatted composite path `/repos/{owner}/{repo}/issues/{issue_number}`. -/
def getIssueUrl (base : Url) (owner repo : String) (issue_number : Nat) : Url :=
  urlJoin base ("/repos/" ++ owner ++ "/" ++ repo ++ "/issues/" ++ toString issue_number)

/-- github.rs `Client::get_repository` URL: `/repos/{owner}/{repo}`. -/
def getRepositoryUrl (base : Url) (owner repo : String) : Url :=
  urlJoin base ("/repos/" ++ owner ++ "/" ++ repo)

/-- github.rs `Client::get_members` URL: the relative reference
`orgs/{organisation}/members`. -/
def getMembersUrl (base : Url) (organisation : String) : Url :=
  urlJoin base ("orgs/" ++ organisation ++ "/members")

/-- github.rs `Client::get_milestones` URL: `/repos/{owner}/{repo}/milestones`. -/
def getMilestonesUrl (base : Url) (owner repo : String) : Url :=
  urlJoin base ("/repos/" ++ owner ++ "/" ++ repo ++ "/milestones")

/-- github.rs `Client::patch_issue` URL: same composite path as `get_issue`. -/
def patchIssueUrl (base : Url) (owner repo : String) (issue_number : Nat) : Url :=
  urlJoin base ("/repos/" ++ owner ++ "/" ++ repo ++ "/issues/" ++ toString issue_number)

/-- github.rs `Client::search_issues` URL: the relative reference
`search/issues`. -/
def searchIssuesUrl (base : Url) : Url :=
  urlJoin base "search/issues"

end Decadog

namespace Decadog

lemma string_data_append (s t : String) : (s ++ t).data = s.data ++ t.data := by
  cases s
  cases t
  rfl

lemma startsWithSlash_append (s t : String) (h : startsWithSlash s = true) :
    startsWithSlash (s ++ t) = true := by
  unfold startsWithSlash at *
  rw [string_data_append]
  cases hd : s.data with
  | nil => rw [hd] at h; simp at h
  | cons c cs =>
    rw [hd] at h
    simp at h
    simp [hd, h]

lemma keepThroughLastSlash_endsSlash (p : String)
    (h : p.data.getLast? = some '/') : keepThroughLastSlash p = p := by
  have hh : p.data.reverse.head? = some '/' := by
    rw [List.head?_reverse]
    exact h
  unfold keepThroughLastSlash
  cases hr : p.data.reverse with
  | nil =>
    rw [hr] at hh
    simp at hh
  | cons c cs =>
    rw [hr] at hh
    simp at hh
    subst hh
    have hdw : (('/' : Char) :: cs).dropWhile (fun x => x ≠ '/') = '/' :: cs := by
      simp [List.dropWhile]
    rw [hdw, ← hr, List.reverse_reverse]

end Decadog

namespace Decadog

lemma string_append_assoc (a b c : String) : a ++ b ++ c = a ++ (b ++ c) := by
  cases a with
  | mk la =>
    cases b with
    | mk lb =>
      cases c with
      | mk lc =>
        show String.mk (la ++ lb ++ lc) = String.mk (la ++ (lb ++ lc))
        rw [List.append_assoc]

lemma string_head?_append (s t : String) (h : s.data ≠ []) :
    (s ++ t).data.head? = s.data.head? := by
  rw [string_data_append]
  cases hd : s.data with
  | nil => exact absurd hd h
  | cons c cs => simp

/-- C4 refuted as stated: against the configured base URL
`https://host/api/v3/`, `get_members`'s relative reference extends the base
path, but `get_issue`'s absolute-path reference `/repos/…` replaces the base
path outright — the `/api/v3` prefix of the configured base is silently
dropped rather than the segment being joined relative to the previous
result, and no error is raised. -/
theorem url_join_drops_nonroot_base_path :
    (getIssueUrl ⟨"https", "host", "/api/v3/"⟩ "o" "r" 1).path =
      "/repos/o/r/issues/1" ∧
    (getMembersUrl ⟨"https", "host", "/api/v3/"⟩ "acme").path =
      "/api/v3/orgs/acme/members" ∧
    (getIssueUrl ⟨"https", "host", "/api/v3/"⟩ "o" "r" 1).path ≠
      "/api/v3/repos/o/r/issues/1" := by
  refine ⟨rfl, rfl, by decide⟩

/-- C4 (amended): every operation's URL is built by a single left-to-right
`Url::join` of the configured base URL with the operation's formatted path
string, resolved as an RFC 3986 reference against the base: for any base
whose path ends in `/`, `get_members`'s relative reference appends its
components to the base path with exactly one separator each, while
`get_issue`'s absolute-path reference `/repos/…` replaces the base URL's
path entirely (dropping a non-root base path); scheme and host are always
preserved.  `Url::join`'s error `Result` is propagated by `?` in the source
but cannot arise for the path-only references these operations format. -/
theorem url_construction_resolution (base : Url)
    (owner repo organisation : String) (issue_number : Nat)
    (hbase : base.path.data.getLast? = some '/') :
    getIssueUrl base owner repo issue_number =
      urlJoin base
        ("/repos/" ++ owner ++ "/" ++ repo ++ "/issues/" ++ toString issue_number) ∧
    getMembersUrl base organisation =
      urlJoin base ("orgs/" ++ organisation ++ "/members") ∧
    (getIssueUrl base owner repo issue_number).path =
      "/repos/" ++ owner ++ "/" ++ repo ++ "/issues/" ++ toString issue_number ∧
    (getMembersUrl base organisation).path =
      base.path ++ ("orgs/" ++ organisation ++ "/members") ∧
    (getIssueUrl base owner repo issue_number).scheme = base.scheme ∧
    (getIssueUrl base owner repo issue_number).host = base.host ∧
    (getMembersUrl base organisation).scheme = base.scheme ∧
    (getMembersUrl base organisation).host = base.host := by
  have habs : ∀ ref, startsWithSlash ref = true →
      urlJoin base ref = { base with path := ref } := by
    intro ref h
    simp [urlJoin, h]
  have hrel : ∀ ref, startsWithSlash ref = false →
      urlJoin base ref =
        { base with path := keepThroughLastSlash base.path ++ ref } := by
    intro ref h
    simp [urlJoin, h]
  have hs0 : startsWithSlash "/repos/" = true := by decide
  have hs1 := startsWithSlash_append "/repos/" owner hs0
  have hs2 := startsWithSlash_append _ "/" hs1
  have hs3 := startsWithSlash_append _ repo hs2
  have hs4 := startsWithSlash_append _ "/issues/" hs3
  have hslash :
      startsWithSlash
        ("/repos/" ++ owner ++ "/" ++ repo ++ "/issues/" ++ toString issue_number) =
        true :=
    startsWithSlash_append _ (toString issue_number) hs4
  have horgsData : ("orgs/" ++ organisation).data ≠ [] := by
    rw [string_data_append]
    rw [show ("orgs/" : String).data = ['o', 'r', 'g', 's', '/'] from rfl]
    simp
  have hnoslash :
      startsWithSlash ("orgs/" ++ organisation ++ "/members") = false := by
    unfold startsWithSlash
    rw [string_head?_append ("orgs/" ++ organisation) "/members" horgsData,
      string_head?_append "orgs/" organisation (by decide)]
    decide
  have h1 : getIssueUrl base owner repo issue_number =
      { base with
        path := "/repos/" ++ owner ++ "/" ++ repo ++ "/issues/" ++ toString issue_number } :=
    habs _ hslash
  have h2 : getMembersUrl base organisation =
      { base with path := base.path ++ ("orgs/" ++ organisation ++ "/members") } := by
    rw [getMembersUrl, hrel _ hnoslash, keepThroughLastSlash_endsSlash base.path hbase]
  refine ⟨rfl, rfl, ?_, ?_, ?_, ?_, ?_, ?_⟩
  · rw [h1]
  · rw [h2]
  · rw [h1]
  · rw [h1]
  · rw [h2]
  · rw [h2]

/-- Concrete instantiation of the amended statement at the non-root base
`https://host/api/v3/`: `get_issue` resolves to the replaced path
`/repos/tommilligan/decadog/issues/42`, while `get_members` extends the base
path to `/api/v3/orgs/acme/members`; the host is untouched. -/
theorem url_construction_resolution_witness :
    (getIssueUrl ⟨"https", "host", "/api/v3/"⟩ "tommilligan" "decadog" 42).path =
      "/repos/" ++ "tommilligan" ++ "/" ++ "decadog" ++ "/issues/" ++ toString 42 ∧
    (getMembersUrl ⟨"https", "host", "/api/v3/"⟩ "acme").path =
      "/api/v3/" ++ ("orgs/" ++ "acme" ++ "/members") ∧
    (getMembersUrl ⟨"https", "host", "/api/v3/"⟩ "acme").host = "host" := by
  refine ⟨(url_construction_resolution ⟨"https", "host", "/api/v3/"⟩
      "tommilligan" "decadog" "acme" 42 (by decide)).2.2.1,
    (url_construction_resolution ⟨"https", "host", "/api/v3/"⟩
      "tommilligan" "decadog" "acme" 42 (by decide)).2.2.2.1,
    (url_construction_resolution ⟨"https", "host", "/api/v3/"⟩
      "tommilligan" "decadog" "acme" 42 (by decide)).2.2.2.2.2.2.2⟩

end Decadog

namespace Decadog

/-- Whether a character may appear in an HTTP header value
(`http::HeaderValue::from_str`, reached through `"token {}".parse()`):
horizontal tab, or any byte from 32 up excluding DEL (127). -/
def validHeaderChar (c : Char) : Bool :=
  c == '\t' || (decide (32 ≤ c.toNat) && c.toNat != 127)

/-- Whether a whole string parses as a header value. -/
def headerValueOk (s : String) : Bool :=
  s.data.all validHeaderChar

/-- The authorization header value github.rs builds: `format!("token {}", token)`. -/
def authHeaderValue (token : String) : String :=
  "token " ++ token

/-- The byte stream `str::as_bytes` feeds to the hasher, modelled at
code-point granularity (`Char.toNat`); for the ASCII configuration strings
this client is built from it is exactly the UTF-8 byte sequence, and
concatenation equality of code-point streams coincides with concatenation
equality of UTF-8 byte streams for any valid strings. -/
def strBytes (s : String) : List Nat :=
  s.data.map Char.toNat

/-- github.rs `Client`: the identity hash, the fixed header map, and the
parsed base URL.  The reqwest transport handle carries no state observable
here and is omitted. -/
structure Client where
  id : Nat
  headers : List (String × String)
  base_url : Url
  deriving DecidableEq, Repr

/-- github.rs `Client::new`: build the authorization header from the token
(failing with a Configuration error mentioning the Authorization header if it
cannot be encoded), parse the base URL (failing with a Configuration error
naming the URL), then hash the URL bytes followed by the token bytes —
`hasher.write(url.as_bytes()); hasher.write(token.as_bytes())`, two
undelimited writes into one stream — to obtain the client id.
`DefaultHasher` (an unkeyed, process-independent SipHash) is modelled by the
explicit hash function `H` over that concatenated stream. -/
def Client.new (H : List Nat → Nat) (url token : String) : Except Error Client :=
  if headerValueOk (authHeaderValue token) then
    match parseUrl url with
    | some base_url =>
      .ok { id := H (strBytes url ++ strBytes token),
            headers := [("authorization", authHeaderValue token)],
            base_url := base_url }
    | none => .error (.Config ("Invalid Github base url " ++ url))
  else
    .error (.Config "Invalid Github token for Authorization header.")

/-- An authenticated request as `Client::request` builds it: method, resolved
URL, the client's headers, plus the query pairs and JSON body attached by the
individual operation (empty/absent unless the operation adds them). -/
structure Request where
  method : Method
  url : Url
  headers : List (String × String)
  query : List (String × String)
  body : Option (List (String × JsonValue))
  deriving DecidableEq, Repr

/-- github.rs `Client::request`: a request builder for the given method and
URL carrying a clone of the client's fixed headers. -/
def Client.request (c : Client) (method : Method) (url : Url) : Request :=
  { method := method, url := url, headers := c.headers, query := [], body := none }

/-- The request built by `Client::get_issue`. -/
def Client.getIssueRequest (c : Client) (owner repo : String) (issue_number : Nat) : Request :=
  c.request .GET (getIssueUrl c.base_url owner repo issue_number)

/-- The request built by `Client::get_repository`. -/
def Client.getRepositoryRequest (c : Client) (owner repo : String) : Request :=
  c.request .GET (getRepositoryUrl c.base_url owner repo)

/-- The request built by `Client::get_members`. -/
def Client.getMembersRequest (c : Client) (organisation : String) : Request :=
  c.request .GET (getMembersUrl c.base_url organisation)

/-- The request built by `Client::get_milestones`. -/
def Client.getMilestonesRequest (c : Client) (owner repo : String) : Request :=
  c.request .GET (getMilestonesUrl c.base_url owner repo)

/-- The request built by `Client::patch_issue`: the base request plus the
serialized update as JSON body (`.json(update)`). -/
def Client.patchIssueRequest (c : Client) (owner repo : String) (issue_number : Nat)
    (update : IssueUpdate) : Request :=
  { c.request .PATCH (patchIssueUrl c.base_url owner repo issue_number) with
      body := some update.serialize }

/-- The request built by `Client::search_issues`: the base request plus the
serialized query pairs (`.query(&query)`). -/
def Client.searchIssuesRequest (c : Client) (query : SearchIssues) : Request :=
  { c.request .GET (searchIssuesUrl c.base_url) with query := query.queryPairs }

/-- Whether an `Except` is a success. -/
def exceptOk {ε α : Type} : Except ε α → Bool
  | .ok _ => true
  | .error _ => false

end Decadog

namespace Decadog

lemma authHeaderValue_ok (token : String) :
    headerValueOk (authHeaderValue token) = token.data.all validHeaderChar := by
  unfold headerValueOk authHeaderValue
  rw [string_data_append, List.all_append]
  rw [show ("token " : String).data.all validHeaderChar = true from by decide]
  simp

lemma client_new_ok_inv (H : List Nat → Nat) (url token : String) (c : Client)
    (h : Client.new H url token = .ok c) :
    c.id = H (strBytes url ++ strBytes token) ∧
    c.headers = [("authorization", authHeaderValue token)] := by
  unfold Client.new at h
  split at h
  · cases hp : parseUrl url with
    | none =>
      rw [hp] at h
      simp at h
    | some b =>
      rw [hp] at h
      cases h
      exact ⟨rfl, rfl⟩
  · simp at h

/-- C6: if the token contains a character that cannot be encoded into an HTTP
header value, `Client::new` fails with the Configuration error naming the
Authorization header (no client is produced); if every character of the token
is encodable, the header parse step succeeds. -/
theorem client_new_token_validation (H : List Nat → Nat) (url token : String) :
    (token.data.all validHeaderChar = false →
      Client.new H url token =
        .error (.Config "Invalid Github token for Authorization header.")) ∧
    (token.data.all validHeaderChar = true →
      headerValueOk (authHeaderValue token) = true) := by
  constructor
  · intro hbad
    unfold Client.new
    rw [authHeaderValue_ok, hbad]
    simp
  · intro hgood
    rw [authHeaderValue_ok]
    exact hgood

/-- Concrete instantiation: a token containing a newline is rejected with the
Authorization-header Configuration error, while `github_token` passes the
header parse step (the inputs of the source's own unit test). -/
theorem client_new_token_validation_witness :
    Client.new List.length "https://api.mygithub.com/" "bad\ntoken" =
      .error (.Config "Invalid Github token for Authorization header.") ∧
    headerValueOk (authHeaderValue "github_token") = true := by
  exact ⟨(client_new_token_validation List.length "https://api.mygithub.com/"
      "bad\ntoken").1 (by decide),
    (client_new_token_validation List.length "https://api.mygithub.com/"
      "github_token").2 (by decide)⟩

/-- C7: every request built by any operation of a constructed client carries
exactly the client's fixed header set, namely the single authorization header
`token <T>` for the construction token `T`. -/
theorem requests_carry_auth_header (H : List Nat → Nat) (url token : String)
    (c : Client) (h : Client.new H url token = .ok c)
    (owner repo organisation : String) (issue_number : Nat)
    (update : IssueUpdate) (query : SearchIssues) :
    (c.getIssueRequest owner repo issue_number).headers =
      [("authorization", "token " ++ token)] ∧
    (c.getRepositoryRequest owner repo).headers =
      [("authorization", "token " ++ token)] ∧
    (c.getMembersRequest organisation).headers =
      [("authorization", "token " ++ token)] ∧
    (c.getMilestonesRequest owner repo).headers =
      [("authorization", "token " ++ token)] ∧
    (c.patchIssueRequest owner repo issue_number update).headers =
      [("authorization", "token " ++ token)] ∧
    (c.searchIssuesRequest query).headers =
      [("authorization", "token " ++ token)] := by
  have hh := (client_new_ok_inv H url token c h).2
  refine ⟨?_, ?_, ?_, ?_, ?_, ?_⟩ <;>
    simp [Client.getIssueRequest, Client.getRepositoryRequest,
      Client.getMembersRequest, Client.getMilestonesRequest,
      Client.patchIssueRequest, Client.searchIssuesRequest, Client.request,
      hh, authHeaderValue]

/-- Concrete instantiation: the client built from
`https://api.mygithub.com/` and `github_token` attaches exactly
`authorization: token github_token` to a `get_issue` request. -/
theorem requests_carry_auth_header_witness :
    (Client.new List.length "https://api.mygithub.com/" "github_token").map
        (fun c => (c.getIssueRequest "tommilligan" "decadog" 42).headers) =
      .ok [("authorization", "token " ++ "github_token")] := by
  cases h : Client.new List.length "https://api.mygithub.com/" "github_token" with
  | error e =>
    have hok : exceptOk
        (Client.new List.length "https://api.mygithub.com/" "github_token") = true := by
      decide
    rw [h] at hok
    simp [exceptOk] at hok
  | ok c =>
    simp only [Except.map]
    exact congrArg Except.ok
      (requests_carry_auth_header List.length "https://api.mygithub.com/"
        "github_token" c h "tommilligan" "decadog" "acme" 42
        IssueUpdate.default ⟨"q", none, none, none⟩).1

/-- C8: client construction is deterministic — two clients constructed from
identical base URL and token values have the same identity (the identity
hasher is unkeyed and both constructions feed it the same byte stream). -/
theorem client_identity_deterministic (H : List Nat → Nat)
    (url1 token1 url2 token2 : String) (hu : url1 = url2) (ht : token1 = token2) :
    (Client.new H url1 token1).map Client.id =
      (Client.new H url2 token2).map Client.id := by
  subst hu
  subst ht
  rfl

/-- A concrete stand-in for the unkeyed standard hasher, used to instantiate
the identity theorems. -/
def demoHash (bytes : List Nat) : Nat :=
  bytes.foldl (fun a b => a * 31 + b) 7

/-- Concrete instantiation: constructing twice from
`https://api.mygithub.com/` and `github_token` yields the same identity. -/
theorem client_identity_deterministic_witness :
    (Client.new demoHash "https://api.mygithub.com/" "github_token").map Client.id =
      (Client.new demoHash "https://api.mygithub.com/" "github_token").map Client.id :=
  client_identity_deterministic demoHash "https://api.mygithub.com/" "github_token"
    "https://api.mygithub.com/" "github_token" rfl rfl

/-- C10: the identity hashes the URL bytes directly followed by the token
bytes with no delimiter, so any two constructed clients whose
URL-then-token byte concatenations coincide share an identity, whatever the
hash function does. -/
theorem client_identity_concat_collision (H : List Nat → Nat)
    (url1 token1 url2 token2 : String)
    (hcat : strBytes url1 ++ strBytes token1 = strBytes url2 ++ strBytes token2)
    (c1 c2 : Client)
    (h1 : Client.new H url1 token1 = .ok c1)
    (h2 : Client.new H url2 token2 = .ok c2) :
    c1.id = c2.id := by
  rw [(client_new_ok_inv H url1 token1 c1 h1).1,
    (client_new_ok_inv H url2 token2 c2 h2).1, hcat]

/-- Concrete instantiation: the distinct input pairs
`("https://a/b", "ctok")` and `("https://a/bc", "tok")` both construct
successfully and collide on identity, because both concatenate to the byte
stream of `https://a/bctok`. -/
theorem client_identity_concat_collision_witness :
    ("https://a/b", "ctok") ≠ ("https://a/bc", "tok") ∧
    (Client.new demoHash "https://a/b" "ctok").map Client.id =
      (Client.new demoHash "https://a/bc" "tok").map Client.id := by
  constructor
  · decide
  · cases h1 : Client.new demoHash "https://a/b" "ctok" with
    | error e =>
      have hok : exceptOk (Client.new demoHash "https://a/b" "ctok") = true := by
        decide
      rw [h1] at hok
      simp [exceptOk] at hok
    | ok c1 =>
      cases h2 : Client.new demoHash "https://a/bc" "tok" with
      | error e =>
        have hok : exceptOk (Client.new demoHash "https://a/bc" "tok") = true := by
          decide
        rw [h2] at hok
        simp [exceptOk] at hok
      | ok c2 =>
        simp only [Except.map]
        exact congrArg Except.ok
          (client_identity_concat_collision demoHash "https://a/b" "ctok"
            "https://a/bc" "tok" (by decide) c1 c2 h1 h2)

end Decadog

namespace Decadog

/-- `Display` of a method, as interpolated into the request debug trace. -/
def Method.str : Method → String
  | .GET => "GET"
  | .PATCH => "PATCH"

/-- The message of the `error!` log statement in `Client::search_issues`. -/
def incompleteResultsMessage : String :=
  "Incomplete results recieved from Github Search API, this is bad"

/-- github.rs `Client::search_issues`, with its log output made explicit:
build the search request (whose dispatch through `Client::request` emits a
debug-level trace of method and URL), classify the response as a
`GithubSearchResults` envelope via `send_github`, and if the envelope has
`incomplete_results` set, emit an error-level log message; the envelope's
items are returned either way.  Returns the result paired with the emitted
log events in order. -/
def Client.search_issues {Body α : Type} (c : Client)
    (decodeResults : Body → Option (GithubSearchResults α))
    (decodeErrBody : Body → Option GithubClientErrorBody)
    (query : SearchIssues) (sent : Option (Response Body)) :
    Except Error (List α) × List (Level × String) :=
  let req := c.searchIssuesRequest query
  let debugEvent : Level × String := (.debug, req.method.str ++ " " ++ req.url.str)
  match send_github decodeResults decodeErrBody sent with
  | .error e => (.error e, [debugEvent])
  | .ok results =>
    if results.incomplete_results then
      (.ok results.items, [debugEvent, (.error, incompleteResultsMessage)])
    else
      (.ok results.items, [debugEvent])

/-- A concrete client value used to instantiate the search theorems. -/
def demoClient : Client :=
  { id := 0, headers := [("authorization", "token t")],
    base_url := { scheme := "https", host := "api.mygithub.com", path := "/" } }

end Decadog

namespace Decadog

/-- C5 refuted as stated: for a 200 response whose envelope has
`incomplete_results = true`, `search_issues` does return all items and does
not turn the flag into an error, but no warning-level event reaches the
logging sink — the condition is logged at error level instead, so the claim
that it is "surfaced as a warning" is false at this input. -/
theorem search_issues_incomplete_logs_no_warning :
    (@Client.search_issues (GithubSearchResults Nat) Nat demoClient some
        (fun _ => none) ⟨"is:open", none, none, none⟩
        (some ⟨200, ⟨true, [5]⟩⟩)).1 = .ok [5] ∧
    Level.warn ∉
      ((@Client.search_issues (GithubSearchResults Nat) Nat demoClient some
        (fun _ => none) ⟨"is:open", none, none, none⟩
        (some ⟨200, ⟨true, [5]⟩⟩)).2).map Prod.fst := by
  constructor
  · rfl
  · decide

/-- C5 (amended): when a search page response decodes successfully and
reports `incomplete_results = true`, every item of that page is still
returned (the flag is never converted into a returned error) and the
condition is surfaced to the logging sink as an **error-level** message with
the fixed incomplete-results text — not as a warning. -/
theorem search_issues_incomplete_surfaced {Body α : Type} (c : Client)
    (decodeResults : Body → Option (GithubSearchResults α))
    (decodeErrBody : Body → Option GithubClientErrorBody)
    (query : SearchIssues) (resp : Response Body)
    (envl : GithubSearchResults α)
    (hs : isSuccess resp.status = true)
    (hd : decodeResults resp.body = some envl) :
    (c.search_issues decodeResults decodeErrBody query (some resp)).1 =
      .ok envl.items ∧
    (envl.incomplete_results = true →
      (Level.error, incompleteResultsMessage) ∈
        (c.search_issues decodeResults decodeErrBody query (some resp)).2) ∧
    Level.warn ∉
      ((c.search_issues decodeResults decodeErrBody query (some resp)).2).map
        Prod.fst := by
  have hsend : send_github decodeResults decodeErrBody (some resp) = .ok envl := by
    simp [send_github, hs, hd]
  cases hinc : envl.incomplete_results with
  | false =>
    refine ⟨?_, ?_, ?_⟩
    · simp [Client.search_issues, hsend, hinc]
    · intro hcontr
      exact Bool.noConfusion hcontr
    · simp [Client.search_issues, hsend, hinc]
  | true =>
    refine ⟨?_, ?_, ?_⟩
    · simp [Client.search_issues, hsend, hinc]
    · intro _
      simp [Client.search_issues, hsend, hinc]
    · simp [Client.search_issues, hsend, hinc]

/-- Concrete instantiation of the amended statement: the incomplete single
page of one item is returned in full alongside the error-level log event. -/
theorem search_issues_incomplete_surfaced_witness :
    (@Client.search_issues (GithubSearchResults Nat) Nat demoClient some
        (fun _ => none) ⟨"is:open", none, none, none⟩
        (some ⟨200, ⟨true, [5]⟩⟩)).1 = .ok [5] ∧
    (Level.error, incompleteResultsMessage) ∈
      (@Client.search_issues (GithubSearchResults Nat) Nat demoClient some
        (fun _ => none) ⟨"is:open", none, none, none⟩
        (some ⟨200, ⟨true, [5]⟩⟩)).2 := by
  refine ⟨(search_issues_incomplete_surfaced demoClient some (fun _ => none)
      ⟨"is:open", none, none, none⟩ ⟨200, ⟨true, [5]⟩⟩ ⟨true, [5]⟩
      (by decide) rfl).1, ?_⟩
  exact (search_issues_incomplete_surfaced demoClient some (fun _ => none)
      ⟨"is:open", none, none, none⟩ ⟨200, ⟨true, [5]⟩⟩ ⟨true, [5]⟩
      (by decide) rfl).2.1 rfl

end Decadog

namespace Decadog

/-- Modelled from the spec: the `github::paginate::PaginatedSearch` cursor.
lib.rs imports `github::paginate::PaginatedSearch` and returns it from
`Client::search_issues`, but the `paginate` module's file is missing from the
snapshot, so the cursor is reconstructed from the spec's Paginated Search
Sequence contract: it borrows the client's page-fetch operation (`fetch`,
taking a page index), holds the fixed page size, the next page index, the
buffer of already-fetched but not yet consumed items, and an exhausted flag.
`calls` counts the underlying network calls issued so far, for stating the
one-call-per-page-boundary property. -/
structure PaginatedSearch (α : Type) where
  fetch : Nat → Except Error (GithubSearchResults α)
  per_page : Nat
  page : Nat
  buffer : List α
  done : Bool
  calls : Nat

/-- Modelled from the spec: construction of the sequence issues no network
call — fetching starts only when the consumer first advances. -/
def PaginatedSearch.init {α : Type}
    (fetch : Nat → Except Error (GithubSearchResults α)) (per_page : Nat) :
    PaginatedSearch α :=
  { fetch := fetch, per_page := per_page, page := 0, buffer := [],
    done := false, calls := 0 }

/-- Modelled from the spec: one consumer pull.  Buffered items are yielded
without any call; crossing a page boundary issues exactly one call, whose
error (if any) is yielded as the final item; a fetched page shorter than the
page size (or empty) exhausts the sequence after its items are consumed;
once exhausted, pulling reports exhaustion without re-issuing requests. -/
def PaginatedSearch.next {α : Type} (s : PaginatedSearch α) :
    Option (Except Error α) × PaginatedSearch α :=
  match s.buffer with
  | item :: rest => (some (.ok item), { s with buffer := rest })
  | [] =>
    if s.done then (none, s)
    else
      match s.fetch s.page with
      | .error e => (some (.error e), { s with done := true, calls := s.calls + 1 })
      | .ok envl =>
        let fetched : PaginatedSearch α :=
          { s with
            calls := s.calls + 1
            page := s.page + 1
            done := decide (envl.items.length < s.per_page) }
        match envl.items with
        | [] => (none, { fetched with done := true })
        | item :: rest => (some (.ok item), { fetched with buffer := rest })

/-- Pull up to `fuel` items from the sequence, collecting them in order and
stopping early at exhaustion; returns the items and the final cursor. -/
def PaginatedSearch.drain {α : Type} :
    Nat → PaginatedSearch α → List (Except Error α) × PaginatedSearch α
  | 0, s => ([], s)
  | Nat.succ fuel, s =>
    match s.next with
    | (none, sNext) => ([], sNext)
    | (some item, sNext) =>
      let rest := PaginatedSearch.drain fuel sNext
      (item :: rest.1, rest.2)

/-- A backend stub that serves three fixed pages and empty pages thereafter,
the scenario of the pagination property. -/
def threePageFetch {α : Type} (p0 p1 p2 : List α) :
    Nat → Except Error (GithubSearchResults α) :=
  fun i =>
    if i = 0 then .ok ⟨false, p0⟩
    else if i = 1 then .ok ⟨false, p1⟩
    else if i = 2 then .ok ⟨false, p2⟩
    else .ok ⟨false, []⟩

end Decadog

namespace Decadog

lemma drain_buffer {α : Type} (f : Nat → Except Error (GithubSearchResults α))
    (pp pg cl : Nat) (d : Bool) (b : List α) (fuel : Nat) :
    PaginatedSearch.drain (b.length + fuel) ⟨f, pp, pg, b, d, cl⟩ =
      ((b.map Except.ok) ++
        (PaginatedSearch.drain fuel ⟨f, pp, pg, [], d, cl⟩).1,
       (PaginatedSearch.drain fuel ⟨f, pp, pg, [], d, cl⟩).2) := by
  induction b with
  | nil => simp
  | cons x rest ih =>
    have hn : (x :: rest).length + fuel = (rest.length + fuel) + 1 := by
      simp [List.length_cons]
      omega
    rw [hn]
    simp [PaginatedSearch.drain, PaginatedSearch.next, ih]

lemma drain_done {α : Type} (f : Nat → Except Error (GithubSearchResults α))
    (pp pg cl fuel : Nat) :
    PaginatedSearch.drain fuel (⟨f, pp, pg, [], true, cl⟩ : PaginatedSearch α) =
      ([], ⟨f, pp, pg, [], true, cl⟩) := by
  cases fuel with
  | zero => rfl
  | succ n => simp [PaginatedSearch.drain, PaginatedSearch.next]

lemma drain_page {α : Type} (f : Nat → Except Error (GithubSearchResults α))
    (pp pg cl : Nat) (flag : Bool) (items : List α) (fuel : Nat)
    (hfetch : f pg = .ok ⟨flag, items⟩) (hne : items ≠ []) :
    PaginatedSearch.drain (items.length + fuel) ⟨f, pp, pg, [], false, cl⟩ =
      ((items.map Except.ok) ++
        (PaginatedSearch.drain fuel
          ⟨f, pp, pg + 1, [], decide (items.length < pp), cl + 1⟩).1,
       (PaginatedSearch.drain fuel
          ⟨f, pp, pg + 1, [], decide (items.length < pp), cl + 1⟩).2) := by
  cases items with
  | nil => exact absurd rfl hne
  | cons x rest =>
    have hn : (x :: rest).length + fuel = (rest.length + fuel) + 1 := by
      simp [List.length_cons]
      omega
    rw [hn]
    simp [PaginatedSearch.drain, PaginatedSearch.next, hfetch, drain_buffer]

lemma next_calls_le {α : Type} (t : PaginatedSearch α) :
    (t.next).2.calls ≤ t.calls + 1 := by
  simp only [PaginatedSearch.next]
  cases hb : t.buffer with
  | cons x rest => simp
  | nil =>
    cases hd : t.done with
    | true => simp
    | false =>
      cases hf : t.fetch t.page with
      | error e => simp
      | ok envl =>
        cases hi : envl.items with
        | nil => simp [hi]
        | cons x rest => simp [hi]

end Decadog

namespace Decadog

/-- C3: for a paginated search with page size N against a backend serving
pages of N, N, and K<N items, construction issues no call, draining the
sequence yields exactly the 2N+K items in the backend's original order using
exactly 3 underlying calls and ends exhausted, and in general a single
consumer advance issues at most one underlying call (no read-ahead). -/
theorem paginated_search_three_pages {α : Type} (N K : Nat) (p0 p1 p2 : List α)
    (h0 : p0.length = N) (h1 : p1.length = N) (h2 : p2.length = K) (hK : K < N) :
    (PaginatedSearch.init (threePageFetch p0 p1 p2) N).calls = 0 ∧
    (PaginatedSearch.drain (2 * N + K + 1)
        (PaginatedSearch.init (threePageFetch p0 p1 p2) N)).1 =
      (p0 ++ p1 ++ p2).map Except.ok ∧
    (PaginatedSearch.drain (2 * N + K + 1)
        (PaginatedSearch.init (threePageFetch p0 p1 p2) N)).2.calls = 3 ∧
    (PaginatedSearch.drain (2 * N + K + 1)
        (PaginatedSearch.init (threePageFetch p0 p1 p2) N)).2.done = true ∧
    ∀ t : PaginatedSearch α, (t.next).2.calls ≤ t.calls + 1 := by
  have hN : 0 < N := Nat.lt_of_le_of_lt (Nat.zero_le K) hK
  have hp0 : p0 ≠ [] := by
    intro hnil
    rw [hnil] at h0
    simp at h0
    omega
  have hp1 : p1 ≠ [] := by
    intro hnil
    rw [hnil] at h1
    simp at h1
    omega
  have hf0 : threePageFetch p0 p1 p2 0 = .ok ⟨false, p0⟩ := rfl
  have hf1 : threePageFetch p0 p1 p2 1 = .ok ⟨false, p1⟩ := rfl
  have hf2 : threePageFetch p0 p1 p2 2 = .ok ⟨false, p2⟩ := rfl
  have hd0 : decide (p0.length < N) = false := by simp [h0]
  have hd1 : decide (p1.length < N) = false := by simp [h1]
  have main :
      PaginatedSearch.drain (2 * N + K + 1)
        (PaginatedSearch.init (threePageFetch p0 p1 p2) N) =
      ((p0 ++ p1 ++ p2).map Except.ok,
        ⟨threePageFetch p0 p1 p2, N, 3, [], true, 3⟩) := by
    have efuel : 2 * N + K + 1 = p0.length + (p1.length + (p2.length + 1)) := by
      omega
    rw [efuel]
    show PaginatedSearch.drain _ ⟨threePageFetch p0 p1 p2, N, 0, [], false, 0⟩ = _
    rw [drain_page (threePageFetch p0 p1 p2) N 0 0 false p0
      (p1.length + (p2.length + 1)) hf0 hp0, hd0]
    simp only [Nat.zero_add]
    rw [drain_page (threePageFetch p0 p1 p2) N 1 1 false p1
      (p2.length + 1) hf1 hp1, hd1]
    norm_num
    cases p2 with
    | nil =>
      simp [PaginatedSearch.drain, PaginatedSearch.next, hf2]
    | cons y rest =>
      have hp2ne : (y :: rest) ≠ [] := by simp
      have hd2 : decide ((y :: rest).length < N) = true := by
        rw [h2]
        simp [hK]
      rw [drain_page (threePageFetch p0 p1 (y :: rest)) N 2 2 false (y :: rest)
        1 hf2 hp2ne, hd2]
      norm_num
      rw [drain_done]
      simp [List.map_append, List.append_assoc]
  refine ⟨rfl, ?_, ?_, ?_, next_calls_le⟩
  · rw [main]
  · rw [main]
  · rw [main]

/-- Concrete instantiation: page size 2, pages `[10, 11]`, `[12, 13]`,
`[14]` — the drained sequence is the five items in order, with three calls
issued in total and none at construction. -/
theorem paginated_search_three_pages_witness :
    (PaginatedSearch.init (threePageFetch [10, 11] [12, 13] [14]) 2).calls = 0 ∧
    (PaginatedSearch.drain (2 * 2 + 1 + 1)
        (PaginatedSearch.init (threePageFetch [10, 11] [12, 13] [14]) 2)).1 =
      ([10, 11] ++ [12, 13] ++ [14]).map Except.ok ∧
    (PaginatedSearch.drain (2 * 2 + 1 + 1)
        (PaginatedSearch.init (threePageFetch [10, 11] [12, 13] [14]) 2)).2.calls =
      3 := by
  refine ⟨(paginated_search_three_pages 2 1 [10, 11] [12, 13] [14]
      rfl rfl rfl (by decide)).1,
    (paginated_search_three_pages 2 1 [10, 11] [12, 13] [14]
      rfl rfl rfl (by decide)).2.1,
    (paginated_search_three_pages 2 1 [10, 11] [12, 13] [14]
      rfl rfl rfl (by decide)).2.2.1⟩

end Decadog
